import Mathlib

/-!
Verification of the pyggb object bridge (`src/wrap-ggb/shared.ts`,
`src/model/dependencies.ts`, and the `Rotate` wrapper module) against its
natural-language specification.

JavaScript numbers are modelled by the decimal scientific representation
produced by `Number.prototype.toExponential()` (sign, single leading digit,
fraction digits, signed decimal exponent); `toExponential` with no argument
emits exactly the digits needed to identify the double uniquely, so this
representation is a faithful stand-in for a finite double, and its exact
decimal value is a rational number.
-/

namespace PyGgb

/-- Decimal scientific representation of a finite JS double, as produced by
`x.toExponential()`: optional sign, one integer digit, optional fraction
digits, and a signed base-10 exponent.  `"-4.1693e-38"` is
`⟨true, 4, [1,6,9,3], -38⟩`. -/
structure SciRepr where
  neg : Bool
  ipart : Nat
  frac : List Nat
  exp : Int
deriving DecidableEq

/-- Exact rational value of a fraction-digit list read after the decimal
point: `[1,6,9]` denotes `0.169`. -/
def fracValQ : List Nat → ℚ
  | [] => 0
  | d :: ds => ((d : ℚ) + fracValQ ds) / 10

/-- Exact rational value of the significand (sign and digits, no exponent). -/
def SciRepr.sigVal (r : SciRepr) : ℚ :=
  (cond r.neg (-1) 1) * ((r.ipart : ℚ) + fracValQ r.frac)

/-- Exact rational value denoted by the whole representation. -/
def SciRepr.value (r : SciRepr) : ℚ := r.sigVal * (10 : ℚ) ^ r.exp

/-- Well-formedness: every digit is an actual decimal digit. -/
def SciRepr.WF (r : SciRepr) : Prop := r.ipart < 10 ∧ ∀ d ∈ r.frac, d < 10

instance (r : SciRepr) : Decidable r.WF := by
  unfold SciRepr.WF
  exact inferInstance

/-- Decimal rendering of a natural number, most significant digit first
(JS renders 0 as "0"). -/
def natChars (n : Nat) : List Char :=
  if n = 0 then ['0'] else ((Nat.digits 10 n).reverse.map Nat.digitChar)

/-- Characters of the fraction part: nothing, or a point followed by the
fraction digits. -/
def fracChars : List Nat → List Char
  | [] => []
  | d :: ds => '.' :: Nat.digitChar d :: ds.map Nat.digitChar

/-- Characters of the significand part of `x.toExponential()`. -/
def SciRepr.sigChars (r : SciRepr) : List Char :=
  (cond r.neg ['-'] []) ++ Nat.digitChar r.ipart :: fracChars r.frac

/-- Characters of the exponent part of `x.toExponential()`; JS always emits
an explicit sign, as in `"1e+0"` and `"1e-7"`. -/
def SciRepr.expChars (r : SciRepr) : List Char :=
  if 0 ≤ r.exp then '+' :: natChars r.exp.toNat else '-' :: natChars (-r.exp).toNat

/-- Model of the JS string `x.toExponential()`: significand, the letter `e`,
then the signed exponent. -/
def SciRepr.toExponentialChars (r : SciRepr) : List Char :=
  r.sigChars ++ 'e' :: r.expChars

/-- Embedding of `strOfNumber` (src/wrap-ggb/shared.ts:28-32): take
`x.toExponential()`, split it at `"e"` into significand and exponent, and
emit the literal `(sig*10^(exp))`. -/
def strOfNumber (r : SciRepr) : String :=
  let jsChars := r.toExponentialChars
  let sig := jsChars.takeWhile (· != 'e')
  let exp := (jsChars.dropWhile (· != 'e')).tail
  ⟨'(' :: sig ++ '*' :: '1' :: '0' :: '^' :: '(' :: exp ++ [')', ')']⟩

/-- Numeric value of one decimal digit character. -/
def digitVal (c : Char) : Option Nat :=
  if '0' ≤ c ∧ c ≤ '9' then some (c.toNat - '0'.toNat) else none

/-- Parse a run of decimal digit characters into the digit list. -/
def parseDigits : List Char → Option (List Nat)
  | [] => some []
  | c :: cs =>
    match digitVal c, parseDigits cs with
    | some d, some ds => some (d :: ds)
    | _, _ => none

/-- Parse a most-significant-first digit run as a natural number. -/
def parseNatChars (l : List Char) : Option Nat :=
  match parseDigits l with
  | some ds => some (Nat.ofDigits 10 ds.reverse)
  | none => none

/-- Parse an unsigned decimal significand, with optional fraction part. -/
def parseUnsignedSig (l : List Char) : Option ℚ :=
  match l.dropWhile (· != '.') with
  | [] => (parseNatChars (l.takeWhile (· != '.'))).map (fun n => (n : ℚ))
  | _ :: fracCs =>
    match parseNatChars (l.takeWhile (· != '.')), parseDigits fracCs with
    | some n, some ds => some ((n : ℚ) + fracValQ ds)
    | _, _ => none

/-- Parse a possibly negated decimal significand. -/
def parseSigChars : List Char → Option ℚ
  | [] => parseUnsignedSig []
  | c :: rest =>
    if c = '-' then (parseUnsignedSig rest).map (fun q => -q)
    else parseUnsignedSig (c :: rest)

/-- Parse a signed decimal exponent (an explicit `+` is accepted). -/
def parseExpChars : List Char → Option Int
  | [] => (parseNatChars []).map Int.ofNat
  | c :: rest =>
    if c = '+' then (parseNatChars rest).map Int.ofNat
    else if c = '-' then (parseNatChars rest).map (fun n => -(Int.ofNat n))
    else (parseNatChars (c :: rest)).map Int.ofNat

/-- Match an exact run of expected characters at the head of a list, and
return what follows it. -/
def dropExact : List Char → List Char → Option (List Char)
  | [], l => some l
  | _ :: _, [] => none
  | p :: ps, c :: cs => if c = p then dropExact ps cs else none

/-- Model of the engine expression parser restricted to the encoded numeric
literals the bridge emits: a string `(sig*10^(exp))` evaluates to the exact
rational `sig * 10 ^ exp`. -/
def parseEncoded (s : String) : Option ℚ :=
  match dropExact ['('] s.data with
  | none => none
  | some rest =>
    match dropExact ['*', '1', '0', '^', '('] (rest.dropWhile (· != '*')) with
    | none => none
    | some rest2 =>
      if rest2.dropWhile (· != ')') = [')', ')'] then
        match parseSigChars (rest.takeWhile (· != '*')),
            parseExpChars (rest2.takeWhile (· != ')')) with
        | some sv, some ev => some (sv * (10 : ℚ) ^ ev)
        | _, _ => none
      else none

/-- The ten decimal digit characters. -/
def decChars : List Char := ['0', '1', '2', '3', '4', '5', '6', '7', '8', '9']

lemma takeWhile_bne_append {c : Char} (xs ys : List Char) (h : c ∉ xs) :
    (xs ++ c :: ys).takeWhile (· != c) = xs := by
  induction xs with
  | nil => simp [List.takeWhile]
  | cons a as ih =>
    simp only [List.mem_cons, not_or] at h
    simp only [List.cons_append, List.takeWhile]
    have ha : (a != c) = true := by
      simp [bne_iff_ne]
      exact fun hac => h.1 hac.symm
    rw [ha]
    simp only [List.append_eq]
    rw [ih h.2]

lemma dropWhile_bne_append {c : Char} (xs ys : List Char) (h : c ∉ xs) :
    (xs ++ c :: ys).dropWhile (· != c) = c :: ys := by
  induction xs with
  | nil => simp [List.dropWhile]
  | cons a as ih =>
    simp only [List.mem_cons, not_or] at h
    simp only [List.cons_append, List.dropWhile]
    have ha : (a != c) = true := by
      simp [bne_iff_ne]
      exact fun hac => h.1 hac.symm
    rw [ha]
    exact ih h.2

lemma digitChar_mem_decChars {d : Nat} (h : d < 10) : Nat.digitChar d ∈ decChars := by
  interval_cases d <;> decide

lemma digitVal_digitChar {d : Nat} (h : d < 10) : digitVal (Nat.digitChar d) = some d := by
  interval_cases d <;> decide

lemma parseDigits_map_digitChar {ds : List Nat} (h : ∀ d ∈ ds, d < 10) :
    parseDigits (ds.map Nat.digitChar) = some ds := by
  induction ds with
  | nil => rfl
  | cons d ds ih =>
    simp only [List.map_cons, parseDigits]
    rw [digitVal_digitChar (h d (List.mem_cons_self d ds)),
      ih (fun x hx => h x (List.mem_cons_of_mem d hx))]

lemma parseNatChars_natChars (n : Nat) : parseNatChars (natChars n) = some n := by
  by_cases h0 : n = 0
  · subst h0; decide
  · unfold natChars parseNatChars
    rw [if_neg h0]
    have hd : ∀ d ∈ (Nat.digits 10 n).reverse, d < 10 := by
      intro d hd
      exact Nat.digits_lt_base (by norm_num) (List.mem_reverse.mp hd)
    rw [parseDigits_map_digitChar hd]
    simp [Nat.ofDigits_digits]

lemma digitChar_notin {d : Nat} (h : d < 10) {c : Char} (hc : c ∉ decChars) :
    Nat.digitChar d ≠ c :=
  fun he => hc (he ▸ digitChar_mem_decChars h)

lemma mem_natChars {c : Char} {n : Nat} (h : c ∈ natChars n) : c ∈ decChars := by
  unfold natChars at h
  by_cases h0 : n = 0
  · rw [if_pos h0] at h
    simp only [List.mem_singleton] at h
    subst h
    decide
  · rw [if_neg h0] at h
    obtain ⟨d, hd, rfl⟩ := List.mem_map.mp h
    exact digitChar_mem_decChars
      (Nat.digits_lt_base (by norm_num) (List.mem_reverse.mp hd))

lemma mem_fracChars {frac : List Nat} (hfrac : ∀ d ∈ frac, d < 10) {c : Char}
    (h : c ∈ fracChars frac) : c ∈ '.' :: decChars := by
  cases frac with
  | nil => simp [fracChars] at h
  | cons d ds =>
    simp only [fracChars, List.mem_cons] at h
    rcases h with rfl | rfl | h
    · simp
    · exact List.mem_cons_of_mem _
        (digitChar_mem_decChars (hfrac d (List.mem_cons_self d ds)))
    · obtain ⟨x, hx, rfl⟩ := List.mem_map.mp h
      exact List.mem_cons_of_mem _
        (digitChar_mem_decChars (hfrac x (List.mem_cons_of_mem d hx)))

lemma sigChars_subset {r : SciRepr} (hr : r.WF) {c : Char} (h : c ∈ r.sigChars) :
    c ∈ '-' :: '.' :: decChars := by
  unfold SciRepr.sigChars at h
  rcases List.mem_append.mp h with h | h
  · cases hneg : r.neg
    · rw [hneg] at h
      simp at h
    · rw [hneg] at h
      simp only [cond_true, List.mem_singleton] at h
      subst h
      simp
  · rcases List.mem_cons.mp h with rfl | h
    · exact List.mem_cons_of_mem _ (List.mem_cons_of_mem _ (digitChar_mem_decChars hr.1))
    · have := mem_fracChars hr.2 h
      rcases List.mem_cons.mp this with rfl | h2
      · simp
      · exact List.mem_cons_of_mem _ (List.mem_cons_of_mem _ h2)

lemma expChars_subset {r : SciRepr} {c : Char} (h : c ∈ r.expChars) :
    c ∈ '+' :: '-' :: decChars := by
  unfold SciRepr.expChars at h
  by_cases he : 0 ≤ r.exp
  · rw [if_pos he] at h
    rcases List.mem_cons.mp h with rfl | h
    · simp
    · exact List.mem_cons_of_mem _ (List.mem_cons_of_mem _ (mem_natChars h))
  · rw [if_neg he] at h
    rcases List.mem_cons.mp h with rfl | h
    · simp
    · exact List.mem_cons_of_mem _ (List.mem_cons_of_mem _ (mem_natChars h))

lemma notMem_sigChars {r : SciRepr} (hr : r.WF) {c : Char}
    (hc : c ∉ '-' :: '.' :: decChars) : c ∉ r.sigChars :=
  fun h => hc (sigChars_subset hr h)

lemma notMem_expChars {r : SciRepr} {c : Char}
    (hc : c ∉ '+' :: '-' :: decChars) : c ∉ r.expChars :=
  fun h => hc (expChars_subset h)

/-- The characters actually emitted by `strOfNumber`: the significand and the
exponent of the scientific representation, spliced into the literal
template `(sig*10^(exp))`. -/
lemma strOfNumber_data (r : SciRepr) (hr : r.WF) :
    (strOfNumber r).data
      = '(' :: r.sigChars ++ '*' :: '1' :: '0' :: '^' :: '(' :: r.expChars ++ [')', ')'] := by
  have he : 'e' ∉ r.sigChars := notMem_sigChars hr (by decide)
  simp only [strOfNumber, SciRepr.toExponentialChars]
  rw [takeWhile_bne_append _ _ he, dropWhile_bne_append _ _ he]
  simp

lemma parseNatChars_singleton {d : Nat} (h : d < 10) :
    parseNatChars [Nat.digitChar d] = some d := by
  have h1 : parseDigits [Nat.digitChar d] = some [d] :=
    @parseDigits_map_digitChar [d] (by simpa using h)
  unfold parseNatChars
  rw [h1]
  simp [Nat.ofDigits_cons, Nat.ofDigits_nil]

lemma bne_true_of_ne {a b : Char} (h : a ≠ b) : (a != b) = true := by
  simpa using h

lemma parseUnsignedSig_digits {ip : Nat} {frac : List Nat} (hip : ip < 10)
    (hfrac : ∀ d ∈ frac, d < 10) :
    parseUnsignedSig (Nat.digitChar ip :: fracChars frac)
      = some ((ip : ℚ) + fracValQ frac) := by
  have hnd : Nat.digitChar ip ≠ '.' := digitChar_notin hip (by decide)
  cases frac with
  | nil =>
    simp only [fracChars]
    simp only [parseUnsignedSig, List.dropWhile, List.takeWhile, bne_true_of_ne hnd]
    rw [parseNatChars_singleton hip]
    simp [fracValQ]
  | cons d ds =>
    have hnotin : '.' ∉ [Nat.digitChar ip] := by
      simp only [List.mem_singleton]
      exact fun h => hnd h.symm
    have hsplit : Nat.digitChar ip :: fracChars (d :: ds)
        = [Nat.digitChar ip] ++ '.' :: (d :: ds).map Nat.digitChar := rfl
    rw [hsplit]
    simp only [parseUnsignedSig, dropWhile_bne_append _ _ hnotin,
      takeWhile_bne_append _ _ hnotin, parseNatChars_singleton hip,
      parseDigits_map_digitChar hfrac]

lemma parseSigChars_sigChars (r : SciRepr) (hr : r.WF) :
    parseSigChars r.sigChars = some r.sigVal := by
  obtain ⟨neg, ip, frac, exp⟩ := r
  obtain ⟨hip, hfrac⟩ := hr
  cases neg
  · simp only [SciRepr.sigChars, SciRepr.sigVal, cond_false, List.nil_append]
    simp only [parseSigChars]
    rw [if_neg (digitChar_notin hip (by decide)), parseUnsignedSig_digits hip hfrac]
    simp
  · simp only [SciRepr.sigChars, SciRepr.sigVal, cond_true, List.cons_append,
      List.nil_append]
    simp only [parseSigChars]
    rw [if_pos trivial, parseUnsignedSig_digits hip hfrac]
    simp

lemma parseExpChars_expChars (r : SciRepr) :
    parseExpChars r.expChars = some r.exp := by
  unfold SciRepr.expChars
  by_cases he : 0 ≤ r.exp
  · rw [if_pos he]
    simp only [parseExpChars]
    rw [if_pos trivial, parseNatChars_natChars]
    simp [Int.toNat_of_nonneg he]
  · rw [if_neg he]
    simp only [parseExpChars]
    rw [if_pos trivial, parseNatChars_natChars,
      if_neg (show ('-' : Char) ≠ '+' by decide)]
    simp only [Option.map_some', Option.some_inj, Int.ofNat_eq_natCast]
    omega

lemma dropExact_append (ps l : List Char) : dropExact ps (ps ++ l) = some l := by
  induction ps with
  | nil => rfl
  | cons p ps ih => simp [dropExact, ih]

lemma parseEncoded_strOfNumber (r : SciRepr) (hr : r.WF) :
    parseEncoded (strOfNumber r) = some r.value := by
  have hstar : '*' ∉ r.sigChars := notMem_sigChars hr (by decide)
  have hrp : ')' ∉ r.expChars := notMem_expChars (by decide)
  have e2 : (r.sigChars ++
          '*' :: ('1' :: '0' :: '^' :: '(' :: (r.expChars ++ [')', ')']))).dropWhile (· != '*')
      = '*' :: ('1' :: '0' :: '^' :: '(' :: (r.expChars ++ [')', ')'])) :=
    dropWhile_bne_append _ _ hstar
  have e3 : (r.sigChars ++
          '*' :: ('1' :: '0' :: '^' :: '(' :: (r.expChars ++ [')', ')']))).takeWhile (· != '*')
      = r.sigChars :=
    takeWhile_bne_append _ _ hstar
  have e5 : (r.expChars ++ [')', ')']).dropWhile (· != ')') = ')' :: [')'] :=
    dropWhile_bne_append _ _ hrp
  have e6 : (r.expChars ++ [')', ')']).takeWhile (· != ')') = r.expChars :=
    takeWhile_bne_append _ _ hrp
  unfold parseEncoded
  rw [strOfNumber_data r hr]
  simp only [List.append_assoc, List.cons_append, List.nil_append]
  simp only [e2, e3, e5, e6, dropExact, reduceIte, parseSigChars_sigChars r hr,
    parseExpChars_expChars r, SciRepr.value]

/-- C1: for every finite double (modelled by its scientific-decimal
representation `r`, as produced by `toExponential()`), the encoder emits the
literal text `(s*10^(e))` built from the significand and exponent of the
scientific representation, contains no native exponential marker `e`, and
evaluating `s*10^e` with the engine parser model recovers exactly the value
of `r` — including negative exponents and extreme magnitudes. -/
theorem strOfNumber_emits_literal_and_round_trips (r : SciRepr) (h : r.WF) :
    (strOfNumber r).data
        = '(' :: r.sigChars ++ '*' :: '1' :: '0' :: '^' :: '(' :: r.expChars ++ [')', ')']
      ∧ 'e' ∉ (strOfNumber r).data
      ∧ parseEncoded (strOfNumber r) = some r.value := by
  refine ⟨strOfNumber_data r h, ?_, parseEncoded_strOfNumber r h⟩
  have h1 : 'e' ∉ r.sigChars := notMem_sigChars h (by decide)
  have h2 : 'e' ∉ r.expChars := notMem_expChars (by decide)
  rw [strOfNumber_data r h]
  simp [h1, h2]

/-- Witness for C1 at the representation of `-4.169e-38` (a tiny negative
magnitude with a negative exponent). -/
theorem strOfNumber_emits_literal_and_round_trips_witness :
    (SciRepr.mk true 4 [1, 6, 9] (-38)).WF
      ∧ ((strOfNumber (SciRepr.mk true 4 [1, 6, 9] (-38))).data
            = '(' :: (SciRepr.mk true 4 [1, 6, 9] (-38)).sigChars ++
                '*' :: '1' :: '0' :: '^' :: '(' ::
                  (SciRepr.mk true 4 [1, 6, 9] (-38)).expChars ++ [')', ')']
          ∧ 'e' ∉ (strOfNumber (SciRepr.mk true 4 [1, 6, 9] (-38))).data
          ∧ parseEncoded (strOfNumber (SciRepr.mk true 4 [1, 6, 9] (-38)))
              = some (SciRepr.mk true 4 [1, 6, 9] (-38)).value) :=
  ⟨by decide, strOfNumber_emits_literal_and_round_trips _ (by decide)⟩

/-! ## Skulpt values, errors and the GeoGebra engine facade -/

deriving instance DecidableEq for Except

/-- Exceptions raised through the interpreter's exception channel
(`Sk.builtin.TypeError`, `Sk.builtin.RuntimeError`, …). -/
inductive SkError where
  | typeError (msg : String)
  | runtimeError (msg : String)
  | valueError (msg : String)
  | unknownTypeError (msg : String)
deriving DecidableEq

/-- Script-level (Skulpt/Python) values relevant to the bridge: `None`,
booleans, numbers (ints and floats both hold a JS number, modelled by its
scientific representation), strings, and wrapped GeoGebra objects (a Skulpt
object carrying a `$ggbLabel`). -/
inductive SkObject where
  | pyNone
  | pyBool (b : Bool)
  | pyNum (r : SciRepr)
  | pyStr (s : String)
  | ggb (label : String)
deriving DecidableEq

/-- The JS number held by a Skulpt numeric value (its `v` field): Skulpt
ints and floats hold a number, and Skulpt bools subclass `int` and hold 1 or
0; other values hold no number. -/
def SkObject.numRepr : SkObject → Option SciRepr
  | .pyNum r => some r
  | .pyBool b => some ⟨false, cond b 1 0, [], 0⟩
  | _ => none

/-- Model of `Sk.builtin.checkNumber`: ints, floats and bools are numbers. -/
def checkNumber (x : SkObject) : Bool := x.numRepr.isSome

/-- Model of `Sk.misceval.isTrue` (Python truthiness): `None` is false,
numbers are true iff nonzero, strings iff nonempty, and a wrapped GeoGebra
object (a native-class instance with no `__bool__`/`__len__`) is true. -/
def isTrue : SkObject → Bool
  | .pyNone => false
  | .pyBool b => b
  | .pyNum r => decide (r.value ≠ 0)
  | .pyStr s => s != ""
  | .ggb _ => true

/-- Engine-side state of one GeoGebra object: its type tag, its mutable
display attributes, its numeric value, and its independence flag. -/
structure GObj where
  typeTag : String
  visible : Bool
  color : String
  pointSize : SciRepr
  lineThickness : SciRepr
  value : SciRepr
  independent : Bool
deriving DecidableEq

/-- Engine construction state: the live objects as an ordered association
list from label to object state, plus the label the engine will assign to
the next object it creates. -/
structure GgbState where
  objs : List (String × GObj)
  nextLabel : String
deriving DecidableEq

def GgbState.lookup (st : GgbState) (label : String) : Option GObj :=
  st.objs.lookup label

/-- Update the object stored under `label`, if present. -/
def GgbState.update (st : GgbState) (label : String) (f : GObj → GObj) : GgbState :=
  { st with objs := st.objs.map (fun p => if p.1 = label then (p.1, f p.2) else p) }

/-- Facade `ggbApi.getObjectType(label)`. -/
def getObjectType (st : GgbState) (label : String) : String :=
  ((st.lookup label).map GObj.typeTag).getD ""

/-- Facade `ggbApi.getVisible(label)`. -/
def getVisible (st : GgbState) (label : String) : Bool :=
  ((st.lookup label).map GObj.visible).getD false

/-- Facade `ggbApi.setVisible(label, b)`. -/
def setVisible (st : GgbState) (label : String) (b : Bool) : GgbState :=
  st.update label (fun o => { o with visible := b })

/-- Facade `ggbApi.getPointSize(label)`. -/
def getPointSize (st : GgbState) (label : String) : SciRepr :=
  ((st.lookup label).map GObj.pointSize).getD ⟨false, 0, [], 0⟩

/-- Facade `ggbApi.setPointSize(label, v)`. -/
def setPointSize (st : GgbState) (label : String) (v : SciRepr) : GgbState :=
  st.update label (fun o => { o with pointSize := v })

/-- Engine calls issued by a bridge operation, in order. -/
inductive ApiCall where
  | setVisible (label : String) (value : Bool)
  | setPointSize (label : String) (value : SciRepr)
  | evalCommand (cmd : String)
deriving DecidableEq

/-- Embedding of `isGgbObject` (src/wrap-ggb/shared.ts:54-70): a value is a
wrapped GeoGebra object (has a `$ggbLabel`); when `requiredType` is given,
the engine-reported type of its label must equal it. -/
def isGgbObject (st : GgbState) (x : SkObject) (requiredType : Option String) : Bool :=
  match x with
  | .ggb label =>
    match requiredType with
    | none => true
    | some t => getObjectType st label == t
  | _ => false

/-- Embedding of `isPythonOrGgbNumber` (src/wrap-ggb/shared.ts:82-83). -/
def isPythonOrGgbNumber (st : GgbState) (x : SkObject) : Bool :=
  checkNumber x || isGgbObject st x (some "numeric")

/-- Embedding of `numberValueOrLabel` (src/wrap-ggb/shared.ts:90-103): a
`numeric` GeoGebra object contributes its label; a Python number contributes
the encoded literal (the source inlines the same `toExponential`-split-
template computation as `strOfNumber`); anything else raises
`Sk.builtin.RuntimeError("internal error: not Number or number")`. -/
def numberValueOrLabel (st : GgbState) (x : SkObject) : Except SkError String :=
  match x with
  | .ggb label =>
    if getObjectType st label = "numeric" then .ok label
    else .error (.runtimeError "internal error: not Number or number")
  | x =>
    match x.numRepr with
    | some r => .ok (strOfNumber r)
    | none => .error (.runtimeError "internal error: not Number or number")

/-! ## with_properties -/

/-- One element of the alternating name/value array passed to
`withPropertiesFromNameValuePairs` (TypeScript type `string | SkObject`). -/
inductive PropArg where
  | name (s : String)
  | value (v : SkObject)
deriving DecidableEq

/-- The unchecked TypeScript cast `propNamesValues[i] as string`; on the
well-formed alternating inputs the loop produces, the other case is never
consulted. -/
def PropArg.asName : PropArg → String
  | .name s => s
  | .value _ => ""

/-- The unchecked TypeScript cast `propNamesValues[i + 1] as SkObject`. -/
def PropArg.asValue : PropArg → SkObject
  | .value v => v
  | .name s => .pyStr s

/-- The ordered `obj.tp$setattr(name, value)` calls issued by the loop of
`withPropertiesFromNameValuePairs`, which walks the array two at a time. -/
def setattrCalls : List PropArg → List (String × SkObject)
  | a :: b :: rest => (a.asName, b.asValue) :: setattrCalls rest
  | _ => []

/-- Embedding of `withPropertiesFromNameValuePairs`
(src/wrap-ggb/shared.ts:109-131): an odd-length array raises RuntimeError;
otherwise the property setters are invoked in array order and the same
object is returned.  The result carries the returned object together with
the ordered setter invocations. -/
def withPropertiesFromNameValuePairs (obj : SkObject) (propNamesValues : List PropArg) :
    Except SkError (SkObject × List (String × SkObject)) :=
  if propNamesValues.length % 2 ≠ 0 then
    .error (.runtimeError "internal error: propNamesValues not in pairs")
  else .ok (obj, setattrCalls propNamesValues)

/-- Embedding of the `with_properties` method descriptor
(src/wrap-ggb/shared.ts:184-192): positional arguments are rejected with
`TypeError("only kwargs")`; the kwargs array is forwarded. -/
def with_properties (obj : SkObject) (args : List SkObject) (kwargs : List PropArg) :
    Except SkError (SkObject × List (String × SkObject)) :=
  if args.length ≠ 0 then .error (.typeError "only kwargs")
  else withPropertiesFromNameValuePairs obj kwargs

/-- A sequence of `(name, value)` pairs laid out as the alternating array a
Skulpt FastCall passes in `kwargs`. -/
def flattenPairs : List (String × SkObject) → List PropArg
  | [] => []
  | (n, v) :: ps => .name n :: .value v :: flattenPairs ps

/-! ## Type registry, engine evaluation, free_copy, Rotate -/

/-- Modelled from the spec: the type tags with registered wrapper
constructors (Type Registry, src/wrap-ggb/type-registry.ts, which is not
part of the src/ snapshot); the spec lists the engine-defined closed set
"point, line, segment, circle, polygon, numeric, text, …". -/
def registeredTags : List String :=
  ["point", "line", "segment", "circle", "polygon", "numeric", "text"]

/-- Modelled from the spec: `wrapExistingGgbObject(ggbApi, label)` (Type
Registry): look up the engine-reported tag for `label` and the constructor
registered for that tag and invoke it; raise `UnknownTypeError` when no
constructor is registered for the tag. -/
def wrapExistingGgbObject (st : GgbState) (label : String) : Except SkError SkObject :=
  if registeredTags.contains (getObjectType st label) then .ok (.ggb label)
  else .error (.unknownTypeError ("no wrapper registered for type " ++ getObjectType st label))

/-- Modelled from the spec: the engine facade's `evalCommandGetLabels` on
the commands this development evaluates.  `CopyFreeObject(label)` duplicates
the object's state under the engine-assigned next label, marks the copy
independent (free), and returns the new label; other command texts are not
given semantics here and return an empty label, leaving the construction
unchanged. -/
def evalCommandGetLabels (st : GgbState) (cmd : String) : String × GgbState :=
  match dropExact "CopyFreeObject(".data cmd.data with
  | some rest =>
    if rest.getLast? = some ')' then
      match st.lookup ⟨rest.dropLast⟩ with
      | some o =>
        (st.nextLabel,
          { st with objs := st.objs ++ [(st.nextLabel, { o with independent := true })] })
      | none => ("", st)
    else ("", st)
  | none => ("", st)

/-- Embedding of the `free_copy` method descriptor
(src/wrap-ggb/shared.ts:197-206): build the command
`CopyFreeObject(label)` by template, evaluate it through the facade, and
wrap the returned label via the Type Registry.  The result carries the
returned value, the engine state after the call, and the submitted
commands. -/
def free_copy (st : GgbState) (label : String) :
    (Except SkError SkObject) × GgbState × List ApiCall :=
  (wrapExistingGgbObject
      (evalCommandGetLabels st ("CopyFreeObject(" ++ label ++ ")")).2
      (evalCommandGetLabels st ("CopyFreeObject(" ++ label ++ ")")).1,
    (evalCommandGetLabels st ("CopyFreeObject(" ++ label ++ ")")).2,
    [ApiCall.evalCommand ("CopyFreeObject(" ++ label ++ ")")])

/-- Modelled from the spec: the command assembler `assembledCommand`
(imported by the Rotate module from `../shared`; not present in the src/
snapshot of shared.ts): the command text grammar `Name[arg1,arg2,...]`. -/
def joinComma : List String → String
  | [] => ""
  | [a] => a
  | a :: b :: rest => a ++ "," ++ joinComma (b :: rest)

/-- Modelled from the spec: `assembledCommand name args = Name[arg1,...]`. -/
def assembledCommand (name : String) (args : List String) : String :=
  name ++ "[" ++ joinComma args ++ "]"

/-- The TypeError message of the Rotate wrapper (src/unnamed/part_001),
which advertises a three-argument form the switch does not implement. -/
def rotateBadArgsMsg : String :=
  "Rotate() arguments must be (object, angle) or (object, angle, rotation_center_point)"

/-- Embedding of the script-facing `Rotate` function
(src/unnamed/part_001:10-35): only the two-argument case is implemented;
every other argument count falls to the `default` branch, which raises the
advertised TypeError.  The result carries the returned value, the engine
state after the call, and the submitted commands. -/
def rotateFun (st : GgbState) (args : List SkObject) :
    (Except SkError SkObject) × GgbState × List ApiCall :=
  match args with
  | [a0, pyAngle] =>
    match a0 with
    | .ggb label =>
      if isPythonOrGgbNumber st pyAngle then
        match numberValueOrLabel st pyAngle with
        | .ok angleArg =>
          (wrapExistingGgbObject
              (evalCommandGetLabels st (assembledCommand "Rotate" [label, angleArg])).2
              (evalCommandGetLabels st (assembledCommand "Rotate" [label, angleArg])).1,
            (evalCommandGetLabels st (assembledCommand "Rotate" [label, angleArg])).2,
            [ApiCall.evalCommand (assembledCommand "Rotate" [label, angleArg])])
        | .error e => (.error e, st, [])
      else
        (.error (.typeError "rotation angle must be a number"), st, [])
    | _ => (.error (.typeError rotateBadArgsMsg), st, [])
  | _ => (.error (.typeError rotateBadArgsMsg), st, [])

/-! ## Shared property accessors -/

/-- Embedding of the `size` getter (src/wrap-ggb/shared.ts:255-257):
`Sk.builtin.float_(ggbApi.getPointSize(label))` (the int/float distinction
is not modelled). -/
def sizeGet (st : GgbState) (label : String) : SkObject :=
  .pyNum (getPointSize st label)

/-- Embedding of the `size` setter (src/wrap-ggb/shared.ts:258-262):
`throwIfNotNumber(pySize, "size must be a number")` — whose message template
appends " must be a number" to that objName — then
`ggbApi.setPointSize(label, pySize.v)`.  The source carries a TODO in place
of any integrality or range check.  The result carries the outcome, the
engine state after the call, and the mutator calls issued. -/
def sizeSet (st : GgbState) (label : String) (pySize : SkObject) :
    (Except SkError Unit) × GgbState × List ApiCall :=
  match pySize.numRepr with
  | none => (.error (.typeError "size must be a number must be a number"), st, [])
  | some r => (.ok (), setPointSize st label r, [ApiCall.setPointSize label r])

/-- Embedding of the `is_visible` setter (src/wrap-ggb/shared.ts:233-236):
`Sk.misceval.isTrue(pyIsVisible)` then `ggbApi.setVisible(label, b)` — with
no type check of any kind. -/
def isVisibleSet (st : GgbState) (label : String) (pyIsVisible : SkObject) :
    (Except SkError Unit) × GgbState × List ApiCall :=
  (.ok (), setVisible st label (isTrue pyIsVisible),
    [ApiCall.setVisible label (isTrue pyIsVisible)])

/-- A concrete engine state: one live point "A"; the engine will label the
next created object "B". -/
def pointObj : GObj :=
  ⟨"point", true, "black", ⟨false, 5, [], 0⟩, ⟨false, 1, [], 0⟩, ⟨false, 0, [], 0⟩, true⟩

def st0 : GgbState := ⟨[("A", pointObj)], "B"⟩

/-! ## Claim C2 -/

/-- C2 counterexample: on a script value that is neither a number nor a
GeoGebra object (a string), the coercion raises
`RuntimeError("internal error: not Number or number")` — a fixed message —
and does not raise a TypeError naming the argument's declared role. -/
theorem numberValueOrLabel_counterexample :
    numberValueOrLabel st0 (.pyStr "hi")
        = .error (.runtimeError "internal error: not Number or number")
      ∧ ¬ ∃ msg, numberValueOrLabel st0 (.pyStr "hi") = .error (.typeError msg) := by
  constructor
  · rfl
  · rintro ⟨msg, h⟩
    rw [show numberValueOrLabel st0 (.pyStr "hi")
        = .error (.runtimeError "internal error: not Number or number") from rfl] at h
    simp at h

/-- C2 (amended): the argument coercion returns the engine label when the
value is a wrapped GeoGebra object of type `numeric`, returns the encoded
numeric literal when the value is a host number, and otherwise raises
`RuntimeError` with the fixed message "internal error: not Number or
number" (not a TypeError naming the argument's declared role). -/
theorem numberValueOrLabel_spec (st : GgbState) (x : SkObject) :
    (∀ label, x = .ggb label →
        numberValueOrLabel st x =
          (if getObjectType st label = "numeric" then .ok label
           else .error (.runtimeError "internal error: not Number or number")))
      ∧ (∀ r, x.numRepr = some r → numberValueOrLabel st x = .ok (strOfNumber r))
      ∧ (isGgbObject st x (some "numeric") = false → checkNumber x = false →
          numberValueOrLabel st x
            = .error (.runtimeError "internal error: not Number or number")) := by
  refine ⟨?_, ?_, ?_⟩
  · rintro label rfl
    rfl
  · intro r hr
    cases x <;> simp_all [numberValueOrLabel, SkObject.numRepr]
  · intro h1 h2
    cases x <;> simp_all [numberValueOrLabel, checkNumber, SkObject.numRepr, isGgbObject]

/-- Witness for C2 (amended) at the host number 2.5. -/
theorem numberValueOrLabel_spec_witness :
    (SkObject.pyNum (SciRepr.mk false 2 [5] 0)).numRepr = some (SciRepr.mk false 2 [5] 0)
      ∧ numberValueOrLabel st0 (SkObject.pyNum (SciRepr.mk false 2 [5] 0))
          = .ok (strOfNumber (SciRepr.mk false 2 [5] 0)) :=
  ⟨rfl, (numberValueOrLabel_spec st0 _).2.1 _ rfl⟩

/-! ## Claim C3 -/

/-- C3: the size setter performs no range validation — the source has only
a TODO where the check belongs.  Setting size to the out-of-range values 0
and 10 raises nothing and calls the engine mutator with those values, while
an in-range set (3) also succeeds and a subsequent get returns it. -/
theorem sizeSet_accepts_out_of_range :
    (sizeSet st0 "A" (.pyNum ⟨false, 0, [], 0⟩)).1 = .ok ()
      ∧ (sizeSet st0 "A" (.pyNum ⟨false, 0, [], 0⟩)).2.2
          = [ApiCall.setPointSize "A" ⟨false, 0, [], 0⟩]
      ∧ (sizeSet st0 "A" (.pyNum ⟨false, 1, [], 1⟩)).1 = .ok ()
      ∧ (sizeSet st0 "A" (.pyNum ⟨false, 1, [], 1⟩)).2.2
          = [ApiCall.setPointSize "A" ⟨false, 1, [], 1⟩]
      ∧ sizeGet (sizeSet st0 "A" (.pyNum ⟨false, 3, [], 0⟩)).2.1 "A"
          = .pyNum ⟨false, 3, [], 0⟩ := by
  decide

/-! ## Claim C5 -/

lemma flattenPairs_length (ps : List (String × SkObject)) :
    (flattenPairs ps).length = 2 * ps.length := by
  induction ps with
  | nil => rfl
  | cons p ps ih =>
    obtain ⟨n, v⟩ := p
    simp [flattenPairs, ih]
    omega

lemma setattrCalls_flattenPairs (ps : List (String × SkObject)) :
    setattrCalls (flattenPairs ps) = ps := by
  induction ps with
  | nil => rfl
  | cons p ps ih =>
    obtain ⟨n, v⟩ := p
    simp [flattenPairs, setattrCalls, PropArg.asName, PropArg.asValue, ih]

/-- C5: invoking `with_properties` with kwargs laid out from the ordered
pairs `ps` applies the named property setters sequentially in exactly the
given order (the setattr trace is `ps` itself) and returns the very same
object it was invoked on. -/
theorem with_properties_applies_in_order_returns_self
    (obj : SkObject) (ps : List (String × SkObject)) :
    with_properties obj [] (flattenPairs ps) = .ok (obj, ps) := by
  have h1 : ¬ (([] : List SkObject).length ≠ 0) := by simp
  have h2 : ¬ ((flattenPairs ps).length % 2 ≠ 0) := by
    simp [flattenPairs_length, Nat.mul_mod_right]
  unfold with_properties withPropertiesFromNameValuePairs
  rw [if_neg h1, if_neg h2, setattrCalls_flattenPairs]

/-! ## Claim C9 -/

/-- C9: the `is_visible` setter never raises for any script value: every
value is accepted, converted to a boolean by truthiness (`isTrue`), and
passed to the engine's visibility mutator, with no type check rejecting
non-boolean values. -/
theorem isVisibleSet_never_raises (st : GgbState) (label : String) (x : SkObject) :
    (isVisibleSet st label x).1 = .ok ()
      ∧ (isVisibleSet st label x).2.2 = [ApiCall.setVisible label (isTrue x)]
      ∧ (isVisibleSet st label x).2.1 = setVisible st label (isTrue x) :=
  ⟨rfl, rfl, rfl⟩

/-! ## Claim C8 -/

/-- C8: for every argument count other than exactly 2 — including the
three-argument (object, angle, rotation_center_point) form advertised by
its own error message — the Rotate wrapper raises the advertised TypeError,
leaves the engine untouched, and issues no engine command. -/
theorem rotateFun_non_two_args_raises (st : GgbState) (args : List SkObject)
    (h : args.length ≠ 2) :
    rotateFun st args = (.error (.typeError rotateBadArgsMsg), st, []) := by
  rcases args with _ | ⟨a, _ | ⟨b, _ | ⟨c, rest⟩⟩⟩
  · rfl
  · rfl
  · exact absurd rfl h
  · rfl

/-- Witness for C8 at the advertised three-argument form
`(object, angle, rotation_center_point)`. -/
theorem rotateFun_non_two_args_raises_witness :
    ([SkObject.ggb "A", SkObject.pyNum (SciRepr.mk false 3 [] 1),
        SkObject.ggb "A"].length ≠ 2)
      ∧ rotateFun st0
          [SkObject.ggb "A", SkObject.pyNum (SciRepr.mk false 3 [] 1), SkObject.ggb "A"]
          = (.error (.typeError rotateBadArgsMsg), st0, []) :=
  ⟨by decide, rotateFun_non_two_args_raises st0 _ (by decide)⟩

/-! ## Claim C4 -/

lemma assembledCommand_contains_bracket (name : String) (args : List String) :
    '[' ∈ (assembledCommand name args).data := by
  unfold assembledCommand
  simp [String.data_append]

/-- C4 counterexample: the command `free_copy` synthesizes and submits for
evaluation is `CopyFreeObject(A)` — parenthesis form — which cannot be
written as any assembler-form command `Name[arg1,...]`. -/
theorem freeCopy_command_not_bracket_form :
    (free_copy st0 "A").2.2 = [ApiCall.evalCommand "CopyFreeObject(A)"]
      ∧ ¬ ∃ name args, "CopyFreeObject(A)" = assembledCommand name args := by
  constructor
  · decide
  · rintro ⟨name, args, h⟩
    have hb := assembledCommand_contains_bracket name args
    rw [← h] at hb
    revert hb
    decide

/-- C4 (amended): commands synthesized through the command assembler have
the square-bracket form `Name[arg1,...]` with label/encoded-literal
arguments — Rotate submits `Rotate[label,(s*10^(e))]` — but `free_copy`
synthesizes its command in parenthesis form, `CopyFreeObject(label)`. -/
theorem bridge_command_texts (st : GgbState) (label : String) (r : SciRepr) :
    (rotateFun st [.ggb label, .pyNum r]).2.2
        = [ApiCall.evalCommand ("Rotate[" ++ label ++ "," ++ strOfNumber r ++ "]")]
      ∧ (free_copy st label).2.2
        = [ApiCall.evalCommand ("CopyFreeObject(" ++ label ++ ")")] := by
  constructor
  · have hcmd : assembledCommand "Rotate" [label, strOfNumber r]
        = "Rotate[" ++ label ++ "," ++ strOfNumber r ++ "]" := by
      apply String.ext
      simp [assembledCommand, joinComma, String.data_append, List.append_assoc]
    simp [rotateFun, isPythonOrGgbNumber, checkNumber, SkObject.numRepr,
      numberValueOrLabel, hcmd]
  · rfl

/-! ## Claim C6 -/

lemma lookup_append_left {l1 l2 : List (String × GObj)} {k : String} {v : GObj}
    (h : l1.lookup k = some v) : (l1 ++ l2).lookup k = some v := by
  induction l1 with
  | nil => simp [List.lookup] at h
  | cons p l1 ih =>
    obtain ⟨a, b⟩ := p
    rw [List.cons_append]
    simp only [List.lookup] at h ⊢
    cases hk : (k == a)
    · rw [hk] at h
      simp only at h
      simp only [ih h]
    · rw [hk] at h
      simpa using h

lemma lookup_append_right {l1 l2 : List (String × GObj)} {k : String}
    (h : l1.lookup k = none) : (l1 ++ l2).lookup k = l2.lookup k := by
  induction l1 with
  | nil => rfl
  | cons p l1 ih =>
    obtain ⟨a, b⟩ := p
    rw [List.cons_append]
    simp only [List.lookup] at h ⊢
    cases hk : (k == a)
    · rw [hk] at h
      simp only at h
      simp only [ih h]
    · rw [hk] at h
      simp at h

/-- C6: `free_copy` submits `CopyFreeObject(label)` through the engine
facade and returns a new wrapper — wrapped from the engine-returned label
via the Type Registry — over a fresh label distinct from the original; the
copied object duplicates the original's current state (and is marked
independent), and the original object is untouched. -/
theorem free_copy_spec (st : GgbState) (label : String) (o : GObj)
    (hlive : st.lookup label = some o)
    (hfresh : st.lookup st.nextLabel = none)
    (htag : o.typeTag ∈ registeredTags) :
    free_copy st label
        = (.ok (.ggb st.nextLabel),
            { st with objs := st.objs ++ [(st.nextLabel, { o with independent := true })] },
            [ApiCall.evalCommand ("CopyFreeObject(" ++ label ++ ")")])
      ∧ st.nextLabel ≠ label
      ∧ ({ st with objs := st.objs ++ [(st.nextLabel, { o with independent := true })] }
            : GgbState).lookup st.nextLabel = some { o with independent := true }
      ∧ ({ st with objs := st.objs ++ [(st.nextLabel, { o with independent := true })] }
            : GgbState).lookup label = some o := by
  have hne : st.nextLabel ≠ label := by
    intro he
    rw [he, hlive] at hfresh
    cases hfresh
  have hnew : ({ st with
        objs := st.objs ++ [(st.nextLabel, { o with independent := true })] }
          : GgbState).lookup st.nextLabel = some { o with independent := true } := by
    show (st.objs ++ [(st.nextLabel, { o with independent := true })]).lookup st.nextLabel
        = some { o with independent := true }
    rw [lookup_append_right hfresh]
    simp [List.lookup]
  have hold : ({ st with
        objs := st.objs ++ [(st.nextLabel, { o with independent := true })] }
          : GgbState).lookup label = some o := lookup_append_left hlive
  have heval : evalCommandGetLabels st ("CopyFreeObject(" ++ label ++ ")")
      = (st.nextLabel,
          { st with objs := st.objs ++ [(st.nextLabel, { o with independent := true })] }) := by
    have hdata : ("CopyFreeObject(" ++ label ++ ")").data
        = "CopyFreeObject(".data ++ (label.data ++ [')']) := by
      simp [String.data_append]
    unfold evalCommandGetLabels
    rw [hdata, dropExact_append]
    simp only [List.getLast?_concat, List.dropLast_concat,
      show (String.mk label.data) = label from rfl, hlive, reduceIte]
  refine ⟨?_, hne, hnew, hold⟩
  unfold free_copy
  rw [heval]
  have hcont : registeredTags.contains o.typeTag = true := by simpa using htag
  have hwrap : wrapExistingGgbObject
      { st with objs := st.objs ++ [(st.nextLabel, { o with independent := true })] }
      st.nextLabel = .ok (.ggb st.nextLabel) := by
    unfold wrapExistingGgbObject getObjectType
    rw [hnew]
    simp only [Option.map_some', Option.getD_some]
    rw [if_pos hcont]
  simp [hwrap]

/-- Witness for C6 on the one-point state `st0`, copying "A" to "B". -/
theorem free_copy_spec_witness :
    st0.lookup "A" = some pointObj
      ∧ st0.lookup st0.nextLabel = none
      ∧ pointObj.typeTag ∈ registeredTags
      ∧ (free_copy st0 "A").1 = .ok (.ggb "B") := by
  refine ⟨by decide, by decide, by decide, ?_⟩
  rw [(free_copy_spec st0 "A" pointObj (by decide) (by decide) (by decide)).1]
  rfl

/-! ## Claim C7: update listeners -/

/-- A wrapped object's listener state: its label and its ordered
`$updateHandlers` array (the `SkGgbObject` shape of
src/wrap-ggb/shared.ts:8-12); handlers are identified by id. -/
structure ListenerState where
  ggbLabel : String
  updateHandlers : List Nat
deriving DecidableEq

/-- Modelled from the spec: handler registration appends to the object's
ordered handler list (the `$fireUpdateEvents` implementation and the
registration path are not part of the src/ snapshot). -/
def registerHandler (w : ListenerState) (h : Nat) : ListenerState :=
  { w with updateHandlers := w.updateHandlers ++ [h] }

/-- Invoke the handlers of a snapshot list in order: each handler runs on
the fired arguments; the first exception aborts the pass and propagates.
`sem` gives each handler's behavior; a successful pass returns the ordered
invocation trace. -/
def fireGo (sem : Nat → List SkObject → Except SkError Unit)
    (args : List SkObject) : List Nat → Except SkError (List (Nat × List SkObject))
  | [] => .ok []
  | h :: hs =>
    match sem h args with
    | .ok _ =>
      match fireGo sem args hs with
      | .ok t => .ok ((h, args) :: t)
      | .error e => .error e
    | .error e => .error e

/-- Modelled from the spec: `$fireUpdateEvents(...args)` invokes every
currently-registered handler, in registration order, with the given
arguments, working on a snapshot of the handler list; handler exceptions
propagate rather than being swallowed. -/
def fireUpdateEvents (sem : Nat → List SkObject → Except SkError Unit)
    (w : ListenerState) (args : List SkObject) :
    Except SkError (List (Nat × List SkObject)) :=
  fireGo sem args w.updateHandlers

/-- C7: with two listeners registered on one object (in this order) and an
update fired once, both handlers are invoked exactly once each, in
registration order, with the fired arguments — the invocation trace is
`[(h1, args), (h2, args)]` — and if the first handler raises, the exception
propagates out of the firing pass. -/
theorem two_listeners_fire_once_each (sem : Nat → List SkObject → Except SkError Unit)
    (w : ListenerState) (h1 h2 : Nat) (args : List SkObject)
    (hempty : w.updateHandlers = []) :
    (sem h1 args = .ok () → sem h2 args = .ok () →
        fireUpdateEvents sem (registerHandler (registerHandler w h1) h2) args
          = .ok [(h1, args), (h2, args)])
      ∧ (∀ e, sem h1 args = .error e →
          fireUpdateEvents sem (registerHandler (registerHandler w h1) h2) args
            = .error e) := by
  obtain ⟨lab, hs⟩ := w
  simp only at hempty
  subst hempty
  constructor
  · intro hok1 hok2
    simp [fireUpdateEvents, registerHandler, fireGo, hok1, hok2]
  · intro e herr
    simp [fireUpdateEvents, registerHandler, fireGo, herr]

/-- Witness for C7: two handlers (ids 0 and 1) that both succeed, fired
once with one argument. -/
theorem two_listeners_fire_once_each_witness :
    ((⟨"A", []⟩ : ListenerState).updateHandlers = [])
      ∧ fireUpdateEvents (fun _ _ => Except.ok ())
          (registerHandler (registerHandler ⟨"A", []⟩ 0) 1) [SkObject.pyNone]
          = .ok [(0, [SkObject.pyNone]), (1, [SkObject.pyNone])] :=
  ⟨rfl,
    (two_listeners_fire_once_each (fun _ _ => Except.ok ()) ⟨"A", []⟩ 0 1
        [SkObject.pyNone] rfl).1 rfl rfl⟩

/-! ## Claim C10: the boot thunk -/

inductive BootStatus where
  | idle
  | running
  | done
deriving DecidableEq

/-- The dependencies slice of the model (src/model/dependencies.ts): boot
status, the GeoGebra API handle (null until loaded, here an opaque value),
and the fetched Python module text. -/
structure DepsState where
  bootStatus : BootStatus
  ggbApi : Option Unit
  ggbPythonModuleText : String
deriving DecidableEq

/-- Embedding of the `setBootStatus` action (src/model/dependencies.ts:30-32). -/
def setBootStatus (s : DepsState) (status : BootStatus) : DepsState :=
  { s with bootStatus := status }

/-- Embedding of the `setGgbPythonModuleText` action
(src/model/dependencies.ts:36-38). -/
def setGgbPythonModuleText (s : DepsState) (text : String) : DepsState :=
  { s with ggbPythonModuleText := text }

/-- Embedding of the `boot` thunk (src/model/dependencies.ts:40-53): read
`bootStatus` once; when it is not "idle", return immediately; otherwise set
"running", fetch the module text (`fetchedText` stands for the awaited
response body), store it, ensure user files exist (a database side effect
outside this state slice), and set "done".  The result carries the final
state and the ordered bootStatus values set during the run. -/
def boot (fetchedText : String) (s : DepsState) : DepsState × List BootStatus :=
  if s.bootStatus ≠ BootStatus.idle then (s, [])
  else
    (setBootStatus (setGgbPythonModuleText (setBootStatus s .running) fetchedText) .done,
      [BootStatus.running, BootStatus.done])

/-- The bootStatus transitions the boot lifecycle allows:
idle → running → done. -/
def bootStep : BootStatus → BootStatus → Prop
  | .idle, .running => True
  | .running, .done => True
  | _, _ => False

/-- C10: the boot thunk runs at most once — whenever `bootStatus` is not
"idle" it returns immediately with the dependency state unchanged and sets
nothing — and the status values it sets follow the lifecycle
idle → running → done. -/
theorem boot_guarded_and_monotonic (text : String) (s : DepsState) :
    (s.bootStatus ≠ .idle → boot text s = (s, []))
      ∧ (s.bootStatus = .idle →
          boot text s
            = (⟨BootStatus.done, s.ggbApi, text⟩,
                [BootStatus.running, BootStatus.done]))
      ∧ List.Chain' bootStep (s.bootStatus :: (boot text s).2) := by
  by_cases h : s.bootStatus = BootStatus.idle
  · refine ⟨fun hn => absurd h hn, fun _ => ?_, ?_⟩
    · simp [boot, h, setBootStatus, setGgbPythonModuleText]
    · rw [h]
      have hb : boot text s = (⟨BootStatus.done, s.ggbApi, text⟩,
          [BootStatus.running, BootStatus.done]) := by
        simp [boot, h, setBootStatus, setGgbPythonModuleText]
      rw [hb]
      exact List.chain'_cons.mpr ⟨trivial, List.chain'_cons.mpr ⟨trivial, List.chain'_singleton _⟩⟩
  · have hb : boot text s = (s, []) := by simp [boot, h]
    exact ⟨fun _ => hb, fun hi => absurd hi h, by rw [hb]; exact List.chain'_singleton _⟩

/-- Witness for C10: a non-idle state is left untouched; an idle state runs
through to "done" with the fetched text stored. -/
theorem boot_guarded_and_monotonic_witness :
    boot "t" ⟨BootStatus.done, none, ""⟩ = (⟨BootStatus.done, none, ""⟩, [])
      ∧ boot "t" ⟨BootStatus.idle, none, ""⟩
          = (⟨BootStatus.done, none, "t"⟩, [BootStatus.running, BootStatus.done]) :=
  ⟨(boot_guarded_and_monotonic "t" ⟨BootStatus.done, none, ""⟩).1 (by decide),
    (boot_guarded_and_monotonic "t" ⟨BootStatus.idle, none, ""⟩).2.1 rfl⟩

end PyGgb
